import Mathlib

/-!
Verification of the `terraform-provider-utils` Terraform provider.

Shallow embedding of the provider's Go code:
* Go strings are embedded as `String` (lists of characters via `String.toList`);
  `strings.Split`, `strings.SplitN` and coreos/go-semver's `splitOff` are
  embedded as executable functions over `List Char`.
* The coreos/go-semver `Version` type, its parser (`Version.Set`, used through
  `semver.New`, which panics on a malformed string - embedded as `Option`),
  its renderer (`Version.String`) and its comparison (`Version.Compare` /
  `Version.LessThan`) are embedded in full.
* The Terraform resource and data-source operations are embedded as pure
  functions from the results of the outbound cloud calls (given as explicit
  arguments) to an outcome recording the diagnostics added, the state written,
  and whether the operation panicked.
-/

/-! ### Go string splitting (`strings.Split`, `strings.SplitN`, `splitOff`) -/

/-- The position of the first occurrence of `sep`: `some (before, after)`
when `sep` occurs, `none` otherwise (embeds `strings.Index`-based splitting). -/
def breakAtChar (sep : Char) : List Char → Option (List Char × List Char)
  | [] => none
  | c :: cs =>
    if c = sep then some ([], cs)
    else (breakAtChar sep cs).map (fun p => (c :: p.1, p.2))

/-- go-semver's `splitOff(&version, sep)`: cut the string at the first `sep`;
the part before stays, the part after is returned (empty when no `sep`). -/
def splitOffChar (sep : Char) (s : List Char) : List Char × List Char :=
  match breakAtChar sep s with
  | none => (s, [])
  | some (a, b) => (a, b)

/-- Go's `strings.Split(s, sep)` for a one-character separator. -/
def splitOnChar (sep : Char) : List Char → List (List Char)
  | [] => [[]]
  | c :: cs =>
    if c = sep then [] :: splitOnChar sep cs
    else
      match splitOnChar sep cs with
      | [] => [[c]]
      | p :: ps => (c :: p) :: ps

/-- Go's `strings.SplitN(s, sep, n)` for a one-character separator and `n > 0`:
at most `n` parts, the last part keeps the remaining separators. -/
def splitNChar (sep : Char) : Nat → List Char → List (List Char)
  | 0, _ => []
  | 1, s => [s]
  | n + 2, s =>
    match breakAtChar sep s with
    | none => [s]
    | some (a, b) => a :: splitNChar sep (n + 1) b

theorem splitOnChar_ne_nil (sep : Char) (l : List Char) : splitOnChar sep l ≠ [] := by
  induction l with
  | nil => simp [splitOnChar]
  | cons c cs ih =>
    simp only [splitOnChar]
    split
    · simp
    · cases h : splitOnChar sep cs with
      | nil => simp
      | cons p ps => simp

theorem breakAtChar_of_not_mem {sep : Char} {l : List Char} (h : sep ∉ l) :
    breakAtChar sep l = none := by
  induction l with
  | nil => rfl
  | cons c cs ih =>
    simp only [List.mem_cons, not_or] at h
    have hc : ¬c = sep := fun hcc => h.1 hcc.symm
    simp only [breakAtChar, if_neg hc, ih h.2, Option.map_none']

theorem splitOnChar_of_not_mem {sep : Char} {l : List Char} (h : sep ∉ l) :
    splitOnChar sep l = [l] := by
  induction l with
  | nil => rfl
  | cons c cs ih =>
    simp only [List.mem_cons, not_or] at h
    have hc : ¬c = sep := fun hcc => h.1 hcc.symm
    simp only [splitOnChar, if_neg hc, ih h.2]

theorem splitOnChar_append_sep {sep : Char} {a : List Char} (b : List Char)
    (h : sep ∉ a) : splitOnChar sep (a ++ sep :: b) = a :: splitOnChar sep b := by
  induction a with
  | nil => simp [splitOnChar]
  | cons c cs ih =>
    simp only [List.mem_cons, not_or] at h
    have hc : ¬c = sep := fun hcc => h.1 hcc.symm
    simp only [List.cons_append, splitOnChar, if_neg hc]
    rw [show cs.append (sep :: b) = cs ++ sep :: b from rfl, ih h.2]

/-! ### coreos/go-semver: parsing, rendering, comparison -/

/-- go-semver's `Version` (int64 components embedded as `Nat`; overflow of
int64 is not modelled, the repository only handles small Dart versions). -/
structure SemVersion where
  major : Nat
  minor : Nat
  patch : Nat
  preRelease : String
  metadata : String
deriving DecidableEq, Repr

/-- Decimal value of a digit string (as read by Go's `strconv.ParseInt`). -/
def digitsToNat (ds : List Char) : Nat :=
  ds.foldl (fun a c => a * 10 + (c.toNat - 48)) 0

/-- `strconv.ParseInt(s, 10, 64)` restricted to unsigned inputs: the dotted
version components can contain no sign, since everything from the first `+`
or `-` on was already split off. -/
def parseNatGo (s : List Char) : Option Nat :=
  if s.isEmpty then none
  else if s.all Char.isDigit then some (digitsToNat s) else none

/-- `strconv.Atoi` as used on pre-release identifiers (sign allowed). -/
def atoiGo (s : List Char) : Option Int :=
  match s with
  | '-' :: rest =>
    if rest.isEmpty then none
    else if rest.all Char.isDigit then some (-(digitsToNat rest : Int)) else none
  | '+' :: rest =>
    if rest.isEmpty then none
    else if rest.all Char.isDigit then some (digitsToNat rest) else none
  | _ =>
    if s.isEmpty then none
    else if s.all Char.isDigit then some (digitsToNat s) else none

/-- go-semver `Version.Set` (via `semver.New` = `Must(NewVersion(s))`, which
panics on error - embedded as `none`): split off metadata at the first `+`,
then the pre-release at the first `-`, then split the rest in at most three
dot-separated integer components. -/
def semverParse (s : String) : Option SemVersion :=
  let m := splitOffChar '+' s.toList
  let p := splitOffChar '-' m.1
  match splitNChar '.' 3 p.1 with
  | [a, b, c] =>
    match parseNatGo a, parseNatGo b, parseNatGo c with
    | some ma, some mi, some pa =>
      some ⟨ma, mi, pa, p.2.asString, m.2.asString⟩
    | _, _, _ => none
  | _ => none

/-- go-semver `Version.String()`. -/
def SemVersion.render (v : SemVersion) : String :=
  toString v.major ++ "." ++ toString v.minor ++ "." ++ toString v.patch
    ++ (if v.preRelease = "" then "" else "-" ++ v.preRelease)
    ++ (if v.metadata = "" then "" else "+" ++ v.metadata)

/-- Three-way comparison on `Nat` (Go `<` / `>` on int64 components). -/
def natCmp (a b : Nat) : Ordering :=
  if a < b then .lt else if b < a then .gt else .eq

/-- Three-way comparison on `Int` (Go `<` / `>` on `Atoi` results). -/
def intCmp (a b : Int) : Ordering :=
  if a < b then .lt else if b < a then .gt else .eq

/-- Go byte-wise string comparison on a single character (UTF-8 order agrees
with code-point order). -/
def charCmp (a b : Char) : Ordering :=
  natCmp a.toNat b.toNat

/-- Lexicographic comparison of lists by an element comparator; a strict
prefix is smaller.  Instantiated at `charCmp` it is Go's string comparison;
at `preIdentCmp` it is go-semver's `recursivePreReleaseCompare`. -/
def lexCmp (f : α → α → Ordering) : List α → List α → Ordering
  | [], [] => .eq
  | [], _ :: _ => .lt
  | _ :: _, [] => .gt
  | a :: as, b :: bs => (f a b).then (lexCmp f as bs)

/-- go-semver comparison of one pre-release identifier: numeric identifiers
(`strconv.Atoi` succeeds) are below non-numeric ones, numeric ones compare by
value, non-numeric ones by Go string comparison. -/
def preIdentCmp (a b : List Char) : Ordering :=
  match atoiGo a, atoiGo b with
  | some x, some y => intCmp x y
  | some _, none => .lt
  | none, some _ => .gt
  | none, none => lexCmp charCmp a b

/-- go-semver `preReleaseCompare`: an empty pre-release is greater than a
non-empty one; two non-empty ones compare by their dot-separated identifiers. -/
def preReleaseCmp (a b : String) : Ordering :=
  if a = "" then (if b = "" then .eq else .gt)
  else if b = "" then .lt
  else lexCmp preIdentCmp (splitOnChar '.' a.toList) (splitOnChar '.' b.toList)

/-- go-semver `Version.Compare`: major/minor/patch first, then pre-release. -/
def semverCmp (a b : SemVersion) : Ordering :=
  ((natCmp a.major b.major).then
    ((natCmp a.minor b.minor).then (natCmp a.patch b.patch))).then
    (preReleaseCmp a.preRelease b.preRelease)

/-- go-semver `Version.LessThan` (`Compare < 0`). -/
def semverLtb (a b : SemVersion) : Bool :=
  semverCmp a b == .lt

/-- The order by which `semver.Sort` sorts (non-strict). -/
def semverLe (a b : SemVersion) : Prop :=
  semverCmp a b ≠ .gt

instance : DecidableRel semverLe := fun a b =>
  inferInstanceAs (Decidable (semverCmp a b ≠ .gt))

/-- Go `<` on strings, non-strict, as used by `sort.Strings`. -/
def goStrLe (a b : String) : Prop :=
  lexCmp charCmp a.toList b.toList ≠ .gt

instance : DecidableRel goStrLe := fun a b =>
  inferInstanceAs (Decidable (lexCmp charCmp a.toList b.toList ≠ .gt))

/-! ### Comparator laws (needed to reason about `semver.Sort` / `sort.Strings`) -/

/-- The comparator is antisymmetric under argument swap. -/
def CmpSwap (c : α → α → Ordering) : Prop :=
  ∀ a b, c a b = (c b a).swap

/-- The induced non-strict order (`≠ .gt`) is transitive. -/
def CmpTrans (c : α → α → Ordering) : Prop :=
  ∀ a b d, c a b ≠ .gt → c b d ≠ .gt → c a d ≠ .gt

/-- Comparator-equal elements compare equally against everything. -/
def CmpEqSub (c : α → α → Ordering) : Prop :=
  ∀ a b, c a b = .eq → ∀ d, c a d = c b d

theorem Ordering_swap_then (x y : Ordering) : (x.then y).swap = x.swap.then y.swap := by
  cases x <;> cases y <;> decide

theorem Ordering_then_eq {x y : Ordering} (h : x.then y = .eq) : x = .eq ∧ y = .eq := by
  cases x <;> cases y <;> simp_all [Ordering.then]

theorem Ordering_then_ne_gt {x y : Ordering} :
    x.then y ≠ .gt ↔ x = .lt ∨ (x = .eq ∧ y ≠ .gt) := by
  cases x <;> cases y <;> decide

theorem cmpEqSub_right {c : α → α → Ordering} (hs : CmpSwap c) (he : CmpEqSub c)
    {b d : α} (h : c b d = .eq) (a : α) : c a b = c a d := by
  rw [hs a b, hs a d, he b d h a]

theorem thenCmp_swap {c1 c2 : α → α → Ordering} (h1 : CmpSwap c1) (h2 : CmpSwap c2) :
    CmpSwap (fun a b => (c1 a b).then (c2 a b)) := by
  intro a b
  simp only
  rw [Ordering_swap_then, ← h1 a b, ← h2 a b]

theorem thenCmp_eqsub {c1 c2 : α → α → Ordering} (h1 : CmpEqSub c1) (h2 : CmpEqSub c2) :
    CmpEqSub (fun a b => (c1 a b).then (c2 a b)) := by
  intro a b h d
  simp only at h ⊢
  obtain ⟨e1, e2⟩ := Ordering_then_eq h
  rw [h1 a b e1 d, h2 a b e2 d]

theorem thenCmp_trans {c1 c2 : α → α → Ordering} (h1s : CmpSwap c1) (h1t : CmpTrans c1)
    (h1e : CmpEqSub c1) (h2t : CmpTrans c2) :
    CmpTrans (fun a b => (c1 a b).then (c2 a b)) := by
  intro a b d hab hbd
  simp only at hab hbd ⊢
  rw [Ordering_then_ne_gt] at hab hbd ⊢
  rcases hab with hab | ⟨hab, hab2⟩
  · rcases hbd with hbd | ⟨hbd, hbd2⟩
    · left
      have hne : c1 a d ≠ .gt := h1t a b d (by simp [hab]) (by simp [hbd])
      have heq : c1 a d ≠ .eq := by
        intro hq
        have := h1e a d hq b
        rw [hab, h1s d b, hbd] at this
        exact absurd this (by decide)
      cases h : c1 a d <;> simp_all
    · left
      rw [← cmpEqSub_right h1s h1e hbd a, hab]
  · rcases hbd with hbd | ⟨hbd, hbd2⟩
    · left
      rw [h1e a b hab d, hbd]
    · right
      constructor
      · rw [h1e a b hab d, hbd]
      · exact h2t a b d hab2 hbd2

theorem cmpSwap_on {c : β → β → Ordering} (h : CmpSwap c) (f : α → β) :
    CmpSwap (fun a b => c (f a) (f b)) :=
  fun a b => h (f a) (f b)

theorem cmpTrans_on {c : β → β → Ordering} (h : CmpTrans c) (f : α → β) :
    CmpTrans (fun a b => c (f a) (f b)) :=
  fun a b d => h (f a) (f b) (f d)

theorem cmpEqSub_on {c : β → β → Ordering} (h : CmpEqSub c) (f : α → β) :
    CmpEqSub (fun a b => c (f a) (f b)) :=
  fun a b hab d => h (f a) (f b) hab (f d)

theorem natCmp_swap (a b : Nat) : natCmp a b = (natCmp b a).swap := by
  rcases lt_trichotomy a b with h | h | h
  · simp [natCmp, h, lt_asymm h, Ordering.swap]
  · subst h
    simp [natCmp, Ordering.swap]
  · simp [natCmp, h, lt_asymm h, Ordering.swap]

theorem natCmp_ne_gt {a b : Nat} : natCmp a b ≠ .gt ↔ a ≤ b := by
  rcases lt_trichotomy a b with h | h | h
  · simp [natCmp, h, lt_asymm h]
    omega
  · subst h
    simp [natCmp]
  · simp [natCmp, h, lt_asymm h]

theorem natCmp_eq_eq {a b : Nat} : natCmp a b = .eq ↔ a = b := by
  rcases lt_trichotomy a b with h | h | h
  · simp [natCmp, h, lt_asymm h]
    omega
  · subst h
    simp [natCmp]
  · simp [natCmp, h, lt_asymm h]
    omega

theorem natCmp_trans : CmpTrans natCmp := by
  intro a b d h1 h2
  rw [natCmp_ne_gt] at h1 h2 ⊢
  omega

theorem natCmp_eqsub : CmpEqSub natCmp := by
  intro a b h d
  rw [natCmp_eq_eq] at h
  subst h
  rfl

theorem intCmp_swap (a b : Int) : intCmp a b = (intCmp b a).swap := by
  rcases lt_trichotomy a b with h | h | h
  · simp [intCmp, h, lt_asymm h, Ordering.swap]
  · subst h
    simp [intCmp, Ordering.swap]
  · simp [intCmp, h, lt_asymm h, Ordering.swap]

theorem intCmp_ne_gt {a b : Int} : intCmp a b ≠ .gt ↔ a ≤ b := by
  rcases lt_trichotomy a b with h | h | h
  · simp [intCmp, h, lt_asymm h]
    omega
  · subst h
    simp [intCmp]
  · simp [intCmp, h, lt_asymm h]

theorem intCmp_eq_eq {a b : Int} : intCmp a b = .eq ↔ a = b := by
  rcases lt_trichotomy a b with h | h | h
  · simp [intCmp, h, lt_asymm h]
    omega
  · subst h
    simp [intCmp]
  · simp [intCmp, h, lt_asymm h]
    omega

theorem intCmp_trans : CmpTrans intCmp := by
  intro a b d h1 h2
  rw [intCmp_ne_gt] at h1 h2 ⊢
  omega

theorem intCmp_eqsub : CmpEqSub intCmp := by
  intro a b h d
  rw [intCmp_eq_eq] at h
  subst h
  rfl

theorem charCmp_swap : CmpSwap charCmp :=
  fun a b => natCmp_swap a.toNat b.toNat

theorem charCmp_trans : CmpTrans charCmp :=
  fun a b d => natCmp_trans a.toNat b.toNat d.toNat

theorem charCmp_eqsub : CmpEqSub charCmp :=
  fun a b h d => natCmp_eqsub a.toNat b.toNat h d.toNat

theorem lexCmp_swap {f : α → α → Ordering} (hf : CmpSwap f) (a b : List α) :
    lexCmp f a b = (lexCmp f b a).swap := by
  induction a generalizing b with
  | nil => cases b <;> rfl
  | cons x xs ih =>
    cases b with
    | nil => rfl
    | cons y ys =>
      simp only [lexCmp]
      rw [Ordering_swap_then, ← hf x y, ← ih ys]

theorem lexCmp_eqsub {f : α → α → Ordering} (hsub : CmpEqSub f) :
    CmpEqSub (lexCmp f) := by
  intro a b h d
  induction a generalizing b d with
  | nil =>
    cases b with
    | nil => rfl
    | cons y ys => simp [lexCmp] at h
  | cons x xs ih =>
    cases b with
    | nil => simp [lexCmp] at h
    | cons y ys =>
      rw [lexCmp] at h
      obtain ⟨h1, h2⟩ := Ordering_then_eq h
      cases d with
      | nil => rfl
      | cons z zs =>
        rw [lexCmp, lexCmp, hsub x y h1 z, ih ys h2 zs]

theorem lexCmp_trans {f : α → α → Ordering} (hswap : CmpSwap f) (htr : CmpTrans f)
    (hsub : CmpEqSub f) : CmpTrans (lexCmp f) := by
  intro a b d h1 h2
  induction a generalizing b d with
  | nil =>
    cases d <;> simp [lexCmp]
  | cons x xs ih =>
    cases b with
    | nil => simp [lexCmp] at h1
    | cons y ys =>
      cases d with
      | nil => simp [lexCmp] at h2
      | cons z zs =>
        rw [lexCmp] at h1 h2 ⊢
        rw [Ordering_then_ne_gt] at h1 h2 ⊢
        rcases h1 with h1 | ⟨h1, h1r⟩
        · rcases h2 with h2 | ⟨h2, h2r⟩
          · left
            have hne : f x z ≠ .gt := htr x y z (by simp [h1]) (by simp [h2])
            have heq : f x z ≠ .eq := by
              intro hq
              have := hsub x z hq y
              rw [h1, hswap z y, h2] at this
              exact absurd this (by decide)
            cases h : f x z <;> simp_all
          · left
            rw [← cmpEqSub_right hswap hsub h2 x, h1]
        · rcases h2 with h2 | ⟨h2, h2r⟩
          · left
            rw [hsub x y h1 z, h2]
          · right
            constructor
            · rw [hsub x y h1 z, h2]
            · exact ih ys zs h1r h2r

theorem preIdentCmp_swap : CmpSwap preIdentCmp := by
  intro a b
  cases ha : atoiGo a <;> cases hb : atoiGo b <;>
    simp only [preIdentCmp, ha, hb]
  · exact lexCmp_swap charCmp_swap a b
  · rfl
  · rfl
  · exact intCmp_swap _ _

theorem preIdentCmp_trans : CmpTrans preIdentCmp := by
  intro a b d h1 h2
  cases ha : atoiGo a <;> cases hb : atoiGo b <;> cases hd : atoiGo d <;>
    simp only [preIdentCmp, ha, hb, hd] at h1 h2 ⊢
  all_goals first
    | exact absurd rfl h1
    | exact absurd rfl h2
    | decide
    | exact lexCmp_trans charCmp_swap charCmp_trans charCmp_eqsub a b d h1 h2
    | exact intCmp_trans _ _ _ h1 h2

theorem preIdentCmp_eqsub : CmpEqSub preIdentCmp := by
  intro a b h d
  cases ha : atoiGo a <;> cases hb : atoiGo b <;> cases hd : atoiGo d <;>
    simp only [preIdentCmp, ha, hb, hd] at h ⊢
  all_goals first
    | rfl
    | exact absurd h (by decide)
    | exact lexCmp_eqsub charCmp_eqsub a b h d
    | (rw [intCmp_eq_eq] at h; subst h; rfl)

theorem preReleaseCmp_swap : CmpSwap preReleaseCmp := by
  intro a b
  by_cases ha : a = "" <;> by_cases hb : b = "" <;>
    simp only [preReleaseCmp, ha, hb, reduceIte]
  all_goals first
    | rfl
    | exact lexCmp_swap preIdentCmp_swap _ _

theorem preReleaseCmp_trans : CmpTrans preReleaseCmp := by
  intro a b d h1 h2
  by_cases ha : a = "" <;> by_cases hb : b = "" <;> by_cases hd : d = "" <;>
    simp only [preReleaseCmp, ha, hb, hd, reduceIte] at h1 h2 ⊢
  all_goals first
    | exact absurd rfl h1
    | exact absurd rfl h2
    | decide
    | exact lexCmp_trans preIdentCmp_swap preIdentCmp_trans preIdentCmp_eqsub
        _ _ _ h1 h2

theorem preReleaseCmp_eqsub : CmpEqSub preReleaseCmp := by
  intro a b h d
  by_cases ha : a = "" <;> by_cases hb : b = "" <;>
    simp only [preReleaseCmp, ha, hb, reduceIte] at h ⊢
  · exact absurd h (by decide)
  · exact absurd h (by decide)
  · by_cases hd : d = "" <;> simp only [hd, reduceIte]
    exact lexCmp_eqsub preIdentCmp_eqsub _ _ h _

theorem semverCmp_swap : CmpSwap semverCmp := by
  have h1 : CmpSwap (fun a b : SemVersion => natCmp a.major b.major) :=
    cmpSwap_on (fun x y => natCmp_swap x y) SemVersion.major
  have h2 : CmpSwap (fun a b : SemVersion => natCmp a.minor b.minor) :=
    cmpSwap_on (fun x y => natCmp_swap x y) SemVersion.minor
  have h3 : CmpSwap (fun a b : SemVersion => natCmp a.patch b.patch) :=
    cmpSwap_on (fun x y => natCmp_swap x y) SemVersion.patch
  have h4 : CmpSwap (fun a b : SemVersion => preReleaseCmp a.preRelease b.preRelease) :=
    cmpSwap_on preReleaseCmp_swap SemVersion.preRelease
  exact thenCmp_swap (thenCmp_swap h1 (thenCmp_swap h2 h3)) h4

theorem semverCmp_eqsub : CmpEqSub semverCmp := by
  have h1 : CmpEqSub (fun a b : SemVersion => natCmp a.major b.major) :=
    cmpEqSub_on natCmp_eqsub SemVersion.major
  have h2 : CmpEqSub (fun a b : SemVersion => natCmp a.minor b.minor) :=
    cmpEqSub_on natCmp_eqsub SemVersion.minor
  have h3 : CmpEqSub (fun a b : SemVersion => natCmp a.patch b.patch) :=
    cmpEqSub_on natCmp_eqsub SemVersion.patch
  have h4 : CmpEqSub (fun a b : SemVersion => preReleaseCmp a.preRelease b.preRelease) :=
    cmpEqSub_on preReleaseCmp_eqsub SemVersion.preRelease
  exact thenCmp_eqsub (thenCmp_eqsub h1 (thenCmp_eqsub h2 h3)) h4

theorem semverCmp_trans : CmpTrans semverCmp := by
  have h1s : CmpSwap (fun a b : SemVersion => natCmp a.major b.major) :=
    cmpSwap_on (fun x y => natCmp_swap x y) SemVersion.major
  have h2s : CmpSwap (fun a b : SemVersion => natCmp a.minor b.minor) :=
    cmpSwap_on (fun x y => natCmp_swap x y) SemVersion.minor
  have h3s : CmpSwap (fun a b : SemVersion => natCmp a.patch b.patch) :=
    cmpSwap_on (fun x y => natCmp_swap x y) SemVersion.patch
  have h1t : CmpTrans (fun a b : SemVersion => natCmp a.major b.major) :=
    cmpTrans_on natCmp_trans SemVersion.major
  have h2t : CmpTrans (fun a b : SemVersion => natCmp a.minor b.minor) :=
    cmpTrans_on natCmp_trans SemVersion.minor
  have h3t : CmpTrans (fun a b : SemVersion => natCmp a.patch b.patch) :=
    cmpTrans_on natCmp_trans SemVersion.patch
  have h1e : CmpEqSub (fun a b : SemVersion => natCmp a.major b.major) :=
    cmpEqSub_on natCmp_eqsub SemVersion.major
  have h2e : CmpEqSub (fun a b : SemVersion => natCmp a.minor b.minor) :=
    cmpEqSub_on natCmp_eqsub SemVersion.minor
  have h3e : CmpEqSub (fun a b : SemVersion => natCmp a.patch b.patch) :=
    cmpEqSub_on natCmp_eqsub SemVersion.patch
  have h4t : CmpTrans (fun a b : SemVersion => preReleaseCmp a.preRelease b.preRelease) :=
    cmpTrans_on preReleaseCmp_trans SemVersion.preRelease
  exact thenCmp_trans
    (thenCmp_swap h1s (thenCmp_swap h2s h3s))
    (thenCmp_trans h1s h1t h1e (thenCmp_trans h2s h2t h2e h3t))
    (thenCmp_eqsub h1e (thenCmp_eqsub h2e h3e))
    h4t

instance : IsTrans SemVersion semverLe :=
  ⟨fun a b d => semverCmp_trans a b d⟩

instance : IsTotal SemVersion semverLe := by
  refine ⟨fun a b => ?_⟩
  by_cases h : semverCmp a b = .gt
  · right
    intro hba
    rw [semverCmp_swap a b, hba] at h
    exact absurd h (by decide)
  · left
    exact h

instance : IsTrans String goStrLe :=
  ⟨fun a b d => lexCmp_trans charCmp_swap charCmp_trans charCmp_eqsub
    a.toList b.toList d.toList⟩

instance : IsTotal String goStrLe := by
  refine ⟨fun a b => ?_⟩
  by_cases h : lexCmp charCmp a.toList b.toList = .gt
  · right
    intro hba
    rw [lexCmp_swap charCmp_swap a.toList b.toList, hba] at h
    exact absurd h (by decide)
  · left
    exact h

/-! ### Dart-versions data source: merge, filter, sort (both variants) -/

/-- Parse every string with `semver.New`; `none` embeds the panic the Go loop
hits on the first malformed version string (parsing happens before any
filtering, as in the source loop). -/
def parseAll : List String → Option (List SemVersion)
  | [] => some []
  | s :: rest =>
    match semverParse s, parseAll rest with
    | some v, some vs => some (v :: vs)
    | _, _ => none

/-- The filter of the variant with an `include_prerelease` attribute:
skip when `semversion.LessThan(*minVersion)`, and skip pre-releases unless
`includePrerelease`. -/
def keepVersion (minV : SemVersion) (includePre : Bool) (v : SemVersion) : Bool :=
  !semverLtb v minV && (v.preRelease == "" || includePre)

/-- The filter of the variant with a `channels` attribute: skip only when
`semversion.LessThan(*minVersion)`. -/
def keepVersionNoPre (minV : SemVersion) (v : SemVersion) : Bool :=
  !semverLtb v minV

/-- The retained, semver-sorted versions (variant with `include_prerelease`):
deduplicate the fetched strings (the Go `map[string]struct{}` set), parse,
filter, `semver.Sort`. -/
def retainedVersions (fetched : List String) (minV : SemVersion)
    (includePre : Bool) : Option (List SemVersion) :=
  (parseAll fetched.dedup).map
    (fun parsed => List.insertionSort semverLe (parsed.filter (keepVersion minV includePre)))

/-- The retained, semver-sorted versions of the variant with a `channels`
attribute (no pre-release filter). -/
def retainedVersionsNoPre (fetched : List String) (minV : SemVersion) :
    Option (List SemVersion) :=
  (parseAll fetched.dedup).map
    (fun parsed => List.insertionSort semverLe (parsed.filter (keepVersionNoPre minV)))

/-- The `versions` attribute written to state: each retained version rendered
with `Version.String()`. -/
def versionsOut (fetched : List String) (minV : SemVersion) (includePre : Bool) :
    Option (List String) :=
  (retainedVersions fetched minV includePre).map (List.map SemVersion.render)

/-- The container-version name of one retained version: the full rendered
version for a pre-release, otherwise the `{major}.{minor}` rollup. -/
def containerName (v : SemVersion) : String :=
  if v.preRelease ≠ "" then v.render
  else toString v.major ++ "." ++ toString v.minor

/-- The `container_versions` attribute: the deduplicated container names
(the Go `map[string]struct{}` set), sorted with `sort.Strings`. -/
def containerVersionsOut (retained : List SemVersion) : List String :=
  List.insertionSort goStrLe ((retained.map containerName).dedup)

/-! ### Dart-versions data source: channel fan-out -/

/-- The result of one channel's `listVersions` call, listed in the order the
goroutines complete. -/
inductive ChannelResult where
  | ok (versions : List String)
  | fail (msg : String)
deriving DecidableEq, Repr

/-- The merged version multiset: every successful channel's versions land in
the shared set, also those completing after a failure (the errgroup does not
cancel the other goroutines). -/
def mergedVersions : List ChannelResult → List String
  | [] => []
  | .ok vs :: rest => vs ++ mergedVersions rest
  | .fail _ :: rest => mergedVersions rest

/-- `errgroup.Group.Wait` returns the error of the first goroutine (in
completion order) that failed. -/
def firstError : List ChannelResult → Option String
  | [] => none
  | .ok _ :: rest => firstError rest
  | .fail m :: _ => some m

/-- A Terraform diagnostic: summary and detail, as passed to `AddError`. -/
abbrev Diag := String × String

/-- The observable outcome of one resource/data-source operation: diagnostics
added plus the state written (`none` when `resp.State.Set` is never called),
or a panic, or a loop that never returns (`hung` stands for a poll loop still
running when the scripted poll responses are exhausted - there is no
timeout). -/
inductive Outcome (σ : Type) where
  | normal (diagnostics : List Diag) (stateWrite : Option σ)
  | panicked (msg : String)
  | hung
deriving DecidableEq, Repr

/-- The state the Dart-versions data source (variant with
`include_prerelease`) writes. -/
structure DartState where
  id : String
  versions : List String
  containerVersions : List String
  includePrerelease : Bool
deriving DecidableEq, Repr

/-- `DartVersionsDataSource.Read` (variant with `include_prerelease`), given
the per-channel listing results in goroutine completion order: the first
error (if any) is added as a diagnostic, every successful channel's versions
are merged into the set, and the versions/container versions are computed and
written to the response state unconditionally. -/
def dartVersionsRead (sdkType minVersionStr : String) (includePre : Bool)
    (channelResults : List ChannelResult) : Outcome DartState :=
  let diags := match firstError channelResults with
    | some m => [("Failed to list versions", m)]
    | none => []
  match semverParse minVersionStr with
  | none => .panicked "invalid min_version"
  | some minV =>
    match parseAll (mergedVersions channelResults).dedup with
    | none => .panicked "invalid version string"
    | some parsed =>
      let retained := List.insertionSort semverLe
        (parsed.filter (keepVersion minV includePre))
      .normal diags (some {
        id := sdkType ++ "/" ++ minVersionStr,
        versions := retained.map SemVersion.render,
        containerVersions := containerVersionsOut retained,
        includePrerelease := includePre })

/-- The object path sent as the `?prefix=` query of one `listVersions` call:
`channels/{channel}/release/`. -/
def channelListPath (channel : String) : String :=
  "channels/" ++ channel ++ "/release/"

/-- The effective channel list of the variant with a `channels` attribute:
the configured list, `["stable"]` when the attribute is null or unknown. -/
def effectiveChannels (channelsAttr : Option (List String)) : List String :=
  match channelsAttr with
  | none => ["stable"]
  | some cs => cs

/-- One listing request per effective channel (variant with a `channels`
attribute). -/
def issuedRequestsChannels (channelsAttr : Option (List String)) : List String :=
  (effectiveChannels channelsAttr).map channelListPath

/-- The fixed channel list of the variant with `include_prerelease`. -/
def fixedChannels : List String := ["stable", "beta", "dev"]

/-- One listing request per channel (variant with `include_prerelease`). -/
def issuedRequestsFixed : List String := fixedChannels.map channelListPath

/-! ### ID helpers (`util.go`) -/

/-- Go's `strings.Split` on `String`, one-character separator. -/
def goSplit (sep : Char) (s : String) : List String :=
  (splitOnChar sep s.toList).map List.asString

/-- `parseConfigId`: the ID must split on `/` in exactly two parts. -/
def parseConfigId (id : String) : Except String (String × String) :=
  match goSplit '/' id with
  | [a, b] => .ok (a, b)
  | _ => .error "ID must be in the format `{serviceName}/{configId}`"

/-- `newConfigId`. -/
def newConfigId (serviceName configId : String) : String :=
  serviceName ++ "/" ++ configId

/-- `parseRolloutId`: same shape as `parseConfigId`. -/
def parseRolloutId (id : String) : Except String (String × String) :=
  match goSplit '/' id with
  | [a, b] => .ok (a, b)
  | _ => .error "ID must be in the format `{serviceName}/{rolloutId}`"

/-- `newRolloutId`. -/
def newRolloutId (serviceName rolloutId : String) : String :=
  serviceName ++ "/" ++ rolloutId

/-! ### Cloud SDK call results and error classification -/

/-- The aspects of a Go error that the provider's error handling inspects:
whether `status.FromError` recognizes it (`fromStatusOk`), whether its gRPC
code is `codes.NotFound` (`codeIsNotFound`, implying a status error), whether
the status's `String()` contains `"not found"`, whether `err.Error()`
contains `"not found"`, and the `err.Error()` message itself. -/
structure SdkError where
  fromStatusOk : Bool
  codeIsNotFound : Bool
  statusStrHasNotFound : Bool
  msgHasNotFound : Bool
  msg : String
deriving DecidableEq, Repr

/-- Result of one outbound cloud SDK call. -/
inductive SdkResult (α : Type) where
  | ok (value : α)
  | err (e : SdkError)
deriving DecidableEq, Repr

/-- `types.String.ValueString()`: the empty string when null. -/
def optStr (o : Option String) : String := o.getD ""

/-! ### `ServiceResource` (resource_service.go) -/

/-- `ServiceResourceModel`. -/
structure ServiceModel where
  serviceName : String
  producerProjectId : String
  defaultTenancyUnit : Option String
deriving DecidableEq, Repr

/-- `servicemanagementpb.ManagedService` (the fields the provider reads). -/
structure ManagedService where
  serviceName : String
  producerProjectId : String
deriving DecidableEq, Repr

/-- `ServiceResource.Read`: not-found (a status error whose code is NotFound
or whose status string contains "not found") returns with neither diagnostic
nor state write; any other error becomes a diagnostic; success re-writes the
state from the response. -/
def serviceRead (data : ServiceModel) (lookup : SdkResult ManagedService) :
    Outcome ServiceModel :=
  match lookup with
  | .err e =>
    if e.fromStatusOk && (e.codeIsNotFound || e.statusStrHasNotFound) then
      .normal [] none
    else
      .normal [("Could not retrieve service", e.msg)] none
  | .ok svc =>
    .normal [] (some { data with
      serviceName := svc.serviceName,
      producerProjectId := svc.producerProjectId })

/-- An operation outcome together with whether `CreateService` was called. -/
structure CreateTrace (σ : Type) where
  createCalled : Bool
  outcome : Outcome σ
deriving DecidableEq, Repr

/-- `ServiceResource.Create`: `GetService` first; success means the service
already exists (diagnostic, no create); an error that is neither a NotFound
code nor carries "not found" in its message is surfaced (no create); only a
not-found error leads to `CreateService` and `Wait`. -/
def serviceCreate (data : ServiceModel) (getRes : SdkResult ManagedService)
    (createRes : SdkResult Unit) (waitRes : SdkResult ManagedService) :
    CreateTrace ServiceModel :=
  match getRes with
  | .ok _ =>
    ⟨false, .normal
      [("Service already exists", "Service " ++ data.serviceName ++ " already exists")]
      none⟩
  | .err e =>
    if !e.codeIsNotFound && !e.msgHasNotFound then
      ⟨false, .normal [("Error getting service", e.msg)] none⟩
    else
      match createRes with
      | .err e2 => ⟨true, .normal [("Error creating service", e2.msg)] none⟩
      | .ok _ =>
        match waitRes with
        | .err e3 => ⟨true, .normal [("Error creating service", e3.msg)] none⟩
        | .ok svc =>
          ⟨true, .normal [] (some { data with
            serviceName := svc.serviceName,
            producerProjectId := svc.producerProjectId })⟩

/-! ### `ServiceRolloutResource` (resource_service_rollout.go) -/

/-- `ServiceRolloutResourceModel`; the float64 traffic percentages are never
inspected by `Read`, they are embedded opaquely as `Int`. -/
structure RolloutModel where
  id : Option String
  configId : Option String
  rolloutConfig : Option (List (String × Int))
deriving DecidableEq, Repr

/-- The rollout response's `TrafficPercentStrategy.Percentages` map. -/
structure RolloutInfo where
  percentages : List (String × Int)
deriving DecidableEq, Repr

/-- `ServiceRolloutResource.Read`: null id returns; unparseable id is a
diagnostic; a NotFound status error returns with neither diagnostic nor
state write; other lookup errors are diagnostics; on success the config id or
rollout config is back-filled when null in the prior state. -/
def rolloutRead (data : RolloutModel) (lookup : SdkResult RolloutInfo) :
    Outcome RolloutModel :=
  match data.id with
  | none => .normal [] none
  | some idStr =>
    match parseRolloutId idStr with
    | .error e => .normal [("Invalid ID", e)] none
    | .ok (serviceName, _) =>
      match lookup with
      | .err e =>
        if e.fromStatusOk && e.codeIsNotFound then .normal [] none
        else .normal [("Error reading service rollout", e.msg)] none
      | .ok rollout =>
        let raw := rollout.percentages
        let data2 :=
          if data.configId.isNone && data.rolloutConfig.isNone then
            if raw.length == 1 then
              { data with configId := some (newConfigId serviceName (raw.headD ("", 0)).1) }
            else
              { data with rolloutConfig := some raw }
          else if data.configId.isNone then
            { data with rolloutConfig := some raw }
          else data
        .normal [] (some data2)

/-! ### `ServiceConfigResource` (resource_service_configuration.go) -/

/-- `servicemanagementpb.ConfigFile_FileType` (the cases the Read switches
on). -/
inductive ConfigFileType where
  | fileDescriptorSetProto
  | serviceConfigYaml
  | other
deriving DecidableEq, Repr

/-- One source file of the retrieved service config; `contents` carries the
file contents opaquely (the base64 encoding of the descriptor bytes is not
re-modelled, the claims never inspect it). -/
structure ConfigFile where
  fileType : ConfigFileType
  contents : String
deriving DecidableEq, Repr

/-- The service config the Read retrieves. -/
structure ServiceConfigInfo where
  name : String
  id : String
  sourceFiles : List ConfigFile
deriving DecidableEq, Repr

/-- `ServiceConfigResourceModel`. -/
structure ConfigResourceModel where
  id : String
  serviceName : String
  configYaml : String
  protoDescriptorBase64 : String
deriving DecidableEq, Repr

/-- The source-file loop of `ServiceConfigResource.Read`: descriptor and YAML
files update the model; an unknown file type adds an error diagnostic but the
loop continues (and the state is still written afterwards). -/
def applySourceFiles (data : ConfigResourceModel) :
    List ConfigFile → List Diag × ConfigResourceModel
  | [] => ([], data)
  | f :: rest =>
    match f.fileType with
    | .fileDescriptorSetProto =>
      applySourceFiles { data with protoDescriptorBase64 := f.contents } rest
    | .serviceConfigYaml =>
      applySourceFiles { data with configYaml := f.contents } rest
    | .other =>
      let r := applySourceFiles data rest
      (("Unknown file type", "Unknown file type") :: r.1, r.2)

/-- `ServiceConfigResource.Read`: an unparseable id and EVERY lookup error -
including not-found - become error diagnostics; there is no not-found
branch in this Read. -/
def serviceConfigResourceRead (data : ConfigResourceModel)
    (lookup : SdkResult ServiceConfigInfo) : Outcome ConfigResourceModel :=
  match parseConfigId data.id with
  | .error e => .normal [("Invalid config ID", e)] none
  | .ok _ =>
    match lookup with
    | .err e => .normal [("Could not retrieve configuration for service", e.msg)] none
    | .ok config =>
      let d1 := { data with
        id := newConfigId config.name config.id,
        serviceName := config.name }
      let r := applySourceFiles d1 config.sourceFiles
      .normal r.1 (some r.2)

/-! ### `ServiceConfigDataSource` (data_service_configuration.go) -/

/-- `ServiceConfigDataSourceModel`. -/
structure ConfigDataModel where
  id : String
  serviceConfigJson : String
deriving DecidableEq, Repr

/-- `ServiceConfigDataSource.Read`; the `protojson.Marshal` step is embedded
as the already-marshalled JSON string carried by a successful lookup. -/
def serviceConfigDataRead (id : String) (lookup : SdkResult String) :
    Outcome ConfigDataModel :=
  match parseConfigId id with
  | .error e => .normal [("Failed to parse config ID", e)] none
  | .ok _ =>
    match lookup with
    | .err e => .normal [("Failed to get service config", e.msg)] none
    | .ok json => .normal [] (some { id := id, serviceConfigJson := json })

/-! ### Tenancy units and tenant projects (resource_tenancy_unit.go, util.go) -/

/-- `serviceconsumermanagement.TenantResource` (the fields the provider
reads). -/
structure TenantResource where
  tag : String
  resource : String
  status : String
deriving DecidableEq, Repr

/-- `serviceconsumermanagement.TenancyUnit` (the fields the provider reads). -/
structure TenancyUnit where
  name : String
  service : String
  consumer : String
  tenantResources : List TenantResource
deriving DecidableEq, Repr

/-- `strings.EqualFold`; Unicode simple case folding embedded as lower-casing
both sides. -/
def eqFoldGo (a b : String) : Bool :=
  a.toList.map Char.toLower == b.toList.map Char.toLower

/-- `UtilsProviderConfig.getTenancyUnit`: list the parent's tenancy units
(not-found on the list call is absence), then pick the one whose name
matches case-insensitively (`nil` when none does). -/
def getTenancyUnit (id : String) (listRes : SdkResult (List TenancyUnit)) :
    SdkResult (Option TenancyUnit) :=
  match listRes with
  | .err e =>
    if e.fromStatusOk && (e.codeIsNotFound || e.statusStrHasNotFound) then
      .ok none
    else .err e
  | .ok tus => .ok (tus.find? (fun tu => eqFoldGo tu.name id))

/-- `UtilsProviderConfig.getTenantProject`: a not-found error (NotFound
status code, or "not found" in the error message), a missing tenancy unit,
and a missing tag all yield absence (`nil, nil`). -/
def getTenantProject (tenancyUnitID tag : String)
    (listRes : SdkResult (List TenancyUnit)) : SdkResult (Option TenantResource) :=
  match getTenancyUnit tenancyUnitID listRes with
  | .err e =>
    if (e.fromStatusOk && e.codeIsNotFound) || e.msgHasNotFound then .ok none
    else .err e
  | .ok none => .ok none
  | .ok (some tu) => .ok (tu.tenantResources.find? (fun r => r.tag == tag))

/-- `ServiceTenancyUnitModel`. -/
structure TenancyUnitModel where
  id : Option String
  serviceName : String
  consumer : String
deriving DecidableEq, Repr

/-- `ServiceTenancyUnitResource.Create`. -/
def tenancyUnitCreate (data : TenancyUnitModel) (createRes : SdkResult TenancyUnit) :
    Outcome TenancyUnitModel :=
  match createRes with
  | .err e => .normal [("Error creating tenancy unit", e.msg)] none
  | .ok tu => .normal [] (some { data with id := some tu.name })

/-- `ServiceTenancyUnitResource.Read`: absence (including a not-found list
error) returns with neither diagnostic nor state write. -/
def tenancyUnitRead (data : TenancyUnitModel) (listRes : SdkResult (List TenancyUnit)) :
    Outcome TenancyUnitModel :=
  match getTenancyUnit (optStr data.id) listRes with
  | .err e => .normal [("Error getting tenancy unit", e.msg)] none
  | .ok none => .normal [] none
  | .ok (some tu) =>
    .normal []
      (some { id := some tu.name, serviceName := tu.service, consumer := tu.consumer })

/-! ### `ServiceProjectResource` (util.go): polling and tenant projects -/

/-- A long-running operation handle (`serviceconsumermanagement.Operation`;
only `Done` and `Name` are read). -/
structure OpState where
  done : Bool
  name : String
deriving DecidableEq, Repr

/-- Result of the `for !op.Done` poll loop: how many `Operations.Get` calls
were made (`gets`), how many seconds were spent in `time.Sleep` (`slept`,
five per iteration), and how the loop ended.  `stillRunning` means the
scripted poll responses ran out with the operation still not done - the real
loop would simply keep polling (no timeout). -/
inductive PollOutcome where
  | completed (gets slept : Nat) (finalOp : OpState)
  | pollFailed (gets slept : Nat) (e : SdkError)
  | stillRunning (gets slept : Nat)
deriving DecidableEq, Repr

/-- Account one more iteration (one 5-second sleep and one `Get`). -/
def PollOutcome.addIter : PollOutcome → PollOutcome
  | .completed g s f => .completed (g + 1) (s + 5) f
  | .pollFailed g s e => .pollFailed (g + 1) (s + 5) e
  | .stillRunning g s => .stillRunning (g + 1) (s + 5)

/-- The poll loop shared by Create/Update/Delete of the tenant-project
resource: while the operation is not done, sleep 5 seconds, then re-fetch it;
a fetch error ends the loop (and the caller surfaces it); nothing else ends
the loop. -/
def pollLoop (op : OpState) : List (SdkResult OpState) → PollOutcome
  | [] => if op.done then .completed 0 0 op else .stillRunning 0 0
  | r :: rest =>
    if op.done then .completed 0 0 op
    else
      match r with
      | .err e => .pollFailed 1 5 e
      | .ok op2 => (pollLoop op2 rest).addIter

/-- `ServiceProjectResourceModel` (the `project_config` pass-through object
is not inspected by the control flow and is not embedded). -/
structure ProjectModel where
  id : Option String
  tenancyUnit : String
  tag : String
  status : Option String
deriving DecidableEq, Repr

/-- `ServiceProjectResource.Create`: `AddProject`, poll the operation, then
look the tenant project up by tag; an absent project after a successful
operation panics with "project not found". -/
def serviceProjectCreate (data : ProjectModel) (addRes : SdkResult OpState)
    (polls : List (SdkResult OpState)) (lookupRes : SdkResult (List TenancyUnit)) :
    Outcome ProjectModel :=
  match addRes with
  | .err e => .normal [("Error adding project", e.msg)] none
  | .ok op =>
    match pollLoop op polls with
    | .pollFailed _ _ e => .normal [("Error getting operation", e.msg)] none
    | .stillRunning _ _ => .hung
    | .completed _ _ _ =>
      match getTenantProject data.tenancyUnit data.tag lookupRes with
      | .err e => .normal [("Error getting project", e.msg)] none
      | .ok none => .panicked "project not found"
      | .ok (some p) =>
        .normal [] (some { data with id := some p.resource, status := some p.status })

/-- `ServiceProjectResource.Update`: `ApplyProjectConfig`, poll, look up; the
same panic on an absent project. -/
def serviceProjectUpdate (data : ProjectModel) (applyRes : SdkResult OpState)
    (polls : List (SdkResult OpState)) (lookupRes : SdkResult (List TenancyUnit)) :
    Outcome ProjectModel :=
  match applyRes with
  | .err e => .normal [("Error updating project", e.msg)] none
  | .ok op =>
    match pollLoop op polls with
    | .pollFailed _ _ e => .normal [("Error getting operation", e.msg)] none
    | .stillRunning _ _ => .hung
    | .completed _ _ _ =>
      match getTenantProject data.tenancyUnit data.tag lookupRes with
      | .err e => .normal [("Error getting project", e.msg)] none
      | .ok none => .panicked "project not found"
      | .ok (some p) =>
        .normal [] (some { data with id := some p.resource, status := some p.status })

/-- `ServiceProjectResource.Delete`: `RemoveProject` then poll; no state is
written. -/
def serviceProjectDelete (_data : ProjectModel) (removeRes : SdkResult OpState)
    (polls : List (SdkResult OpState)) : Outcome ProjectModel :=
  match removeRes with
  | .err e => .normal [("Error removing project", e.msg)] none
  | .ok op =>
    match pollLoop op polls with
    | .pollFailed _ _ e => .normal [("Error getting operation", e.msg)] none
    | .stillRunning _ _ => .hung
    | .completed _ _ _ => .normal [] none

/-- `ServiceProjectResource.Read`: absence of the tenant project (including a
not-found error) returns with neither diagnostic nor state write. -/
def serviceProjectRead (data : ProjectModel) (lookupRes : SdkResult (List TenancyUnit)) :
    Outcome ProjectModel :=
  match getTenantProject data.tenancyUnit data.tag lookupRes with
  | .err e => .normal [("Error getting project", e.msg)] none
  | .ok none => .normal [] none
  | .ok (some p) =>
    .normal [] (some { data with id := some p.resource, status := some p.status })

/-! ### Helper lemmas -/

theorem asString_data (s : String) : List.asString s.data = s := by
  cases s
  rfl

theorem goSplit_sep_free_concat {s c : String} (hs : '/' ∉ s.toList)
    (hc : '/' ∉ c.toList) : goSplit '/' (s ++ "/" ++ c) = [s, c] := by
  unfold goSplit
  have hdata : (s ++ "/" ++ c).toList = s.data ++ '/' :: c.data := by
    show (s ++ "/" ++ c).data = _
    simp only [String.data_append]
    simp [show ("/" : String).data = ['/'] from rfl]
  have hs2 : '/' ∉ s.data := hs
  have hc2 : '/' ∉ c.data := hc
  rw [hdata, splitOnChar_append_sep c.data hs2, splitOnChar_of_not_mem hc2]
  simp [asString_data]

theorem parseConfigId_error_iff (id : String) :
    (∃ e, parseConfigId id = .error e) ↔ (goSplit '/' id).length ≠ 2 := by
  unfold parseConfigId
  rcases h : goSplit '/' id with _ | ⟨a, _ | ⟨b, rest⟩⟩
  · simp
  · simp
  · cases rest with
    | nil => simp
    | cons x xs => simp

theorem parseRolloutId_error_iff (id : String) :
    (∃ e, parseRolloutId id = .error e) ↔ (goSplit '/' id).length ≠ 2 := by
  unfold parseRolloutId
  rcases h : goSplit '/' id with _ | ⟨a, _ | ⟨b, rest⟩⟩
  · simp
  · simp
  · cases rest with
    | nil => simp
    | cons x xs => simp

theorem channelListPath_injective : Function.Injective channelListPath := by
  intro a b h
  unfold channelListPath at h
  have h2 : ("channels/" ++ a ++ "/release/").data
      = ("channels/" ++ b ++ "/release/").data := by rw [h]
  simp only [String.data_append] at h2
  exact String.ext (List.append_cancel_left (List.append_cancel_right h2))

/-! ### Claim theorems -/

/-- C8: for '/',-free `serviceName` and `configId`, `parseConfigId` inverts
`newConfigId` (and `parseRolloutId` inverts `newRolloutId`); and for every
input string, `parseConfigId` (likewise `parseRolloutId`) returns an error
exactly when splitting the input on `/` does not yield exactly two parts. -/
theorem parse_config_id_spec :
    (∀ s c : String, '/' ∉ s.toList → '/' ∉ c.toList →
      parseConfigId (newConfigId s c) = .ok (s, c) ∧
      parseRolloutId (newRolloutId s c) = .ok (s, c)) ∧
    (∀ id, (∃ e, parseConfigId id = .error e) ↔ (goSplit '/' id).length ≠ 2) ∧
    (∀ id, (∃ e, parseRolloutId id = .error e) ↔ (goSplit '/' id).length ≠ 2) := by
  refine ⟨fun s c hs hc => ⟨?_, ?_⟩, parseConfigId_error_iff, parseRolloutId_error_iff⟩
  · unfold parseConfigId newConfigId
    rw [goSplit_sep_free_concat hs hc]
  · unfold parseRolloutId newRolloutId
    rw [goSplit_sep_free_concat hs hc]

/-- Witness for C8: the round-trip at `serviceName = "svc"`,
`configId = "2024-01-01r0"`. -/
theorem parse_config_id_spec_witness :
    parseConfigId (newConfigId "svc" "2024-01-01r0") = .ok ("svc", "2024-01-01r0") ∧
    parseRolloutId (newRolloutId "svc" "2024-01-01r0") = .ok ("svc", "2024-01-01r0") :=
  parse_config_id_spec.1 "svc" "2024-01-01r0" (by decide) (by decide)

/-- C7: one listing request per effective channel, each with object path
`channels/{channel}/release/`; the variant with a `channels` attribute
defaults to `["stable"]` when the attribute is absent and otherwise uses the
configured list; the other variant always requests the fixed channels
`stable`, `beta`, `dev`. -/
theorem channel_requests_spec :
    effectiveChannels none = ["stable"] ∧
    (∀ cs, effectiveChannels (some cs) = cs) ∧
    (∀ attr c, (issuedRequestsChannels attr).count (channelListPath c) =
      (effectiveChannels attr).count c) ∧
    (∀ attr, issuedRequestsChannels attr = (effectiveChannels attr).map channelListPath) ∧
    issuedRequestsFixed =
      ["channels/stable/release/", "channels/beta/release/", "channels/dev/release/"] := by
  refine ⟨rfl, fun cs => rfl, fun attr c => ?_, fun attr => rfl, rfl⟩
  exact List.count_map_of_injective _ channelListPath channelListPath_injective c

/-- C2: for every retained version list, the container-version list is
deduplicated, sorted (Go `sort.Strings` order), and contains a string
exactly when some retained version maps to it - the full rendered version
for a pre-release, the `{major}.{minor}` rollup otherwise. -/
theorem container_versions_spec (retained : List SemVersion) :
    (containerVersionsOut retained).Nodup ∧
    List.Sorted goStrLe (containerVersionsOut retained) ∧
    ∀ s, (s ∈ containerVersionsOut retained ↔
      ∃ v ∈ retained, (if v.preRelease ≠ "" then v.render
        else toString v.major ++ "." ++ toString v.minor) = s) := by
  unfold containerVersionsOut
  have perm := List.perm_insertionSort goStrLe ((retained.map containerName).dedup)
  refine ⟨?_, ?_, ?_⟩
  · exact perm.nodup_iff.mpr (List.nodup_dedup _)
  · exact List.sorted_insertionSort goStrLe _
  · intro s
    rw [perm.mem_iff, List.mem_dedup, List.mem_map]
    unfold containerName
    exact Iff.rfl

theorem keepVersion_eq_true_iff (minV : SemVersion) (includePre : Bool) (v : SemVersion) :
    keepVersion minV includePre v = true ↔
      (semverLtb v minV = false ∧ (v.preRelease = "" ∨ includePre = true)) := by
  unfold keepVersion
  cases h1 : semverLtb v minV <;> cases h2 : includePre <;>
    by_cases h3 : v.preRelease = "" <;> simp [h1, h2, h3]

theorem parseAll_canonical (l : List String)
    (h : ∀ s ∈ l, ∃ v, semverParse s = some v ∧ v.render = s) :
    ∃ ps, parseAll l = some ps ∧ ps.map SemVersion.render = l ∧
      ∀ v ∈ ps, semverParse v.render = some v := by
  induction l with
  | nil => exact ⟨[], rfl, rfl, by simp⟩
  | cons s rest ih =>
    obtain ⟨v, hv, hr⟩ := h s (List.mem_cons_self s rest)
    obtain ⟨ps, hps, hmap, hmem⟩ := ih (fun t ht => h t (List.mem_cons_of_mem s ht))
    refine ⟨v :: ps, ?_, ?_, ?_⟩
    · simp [parseAll, hv, hps]
    · simp [hmap, hr]
    · intro w hw
      rcases List.mem_cons.mp hw with hw | hw
      · subst hw
        rw [hr]
        exact hv
      · exact hmem w hw

/-- C1 (amended): provided every fetched version string is canonical - it
parses with `semver.New` and re-rendering the parsed version yields the
string back - the computed `versions` list of the variant with an
`include_prerelease` attribute is deduplicated, sorted ascending in
semantic-version order, and contains exactly the fetched versions that are
not semver-less-than `min_version` and whose pre-release component is empty
unless `include_prerelease` is set; the variant with a `channels` attribute
computes the same list with the pre-release filter always passing.  The
canonicality premise is what the counterexample shows cannot be dropped. -/
theorem dart_versions_filter_sort (fetched : List String) (minV : SemVersion)
    (includePre : Bool)
    (hcanon : ∀ s ∈ fetched, ∃ v, semverParse s = some v ∧ v.render = s) :
    (∃ retained, retainedVersions fetched minV includePre = some retained ∧
      List.Sorted semverLe retained ∧
      versionsOut fetched minV includePre = some (retained.map SemVersion.render) ∧
      (retained.map SemVersion.render).Nodup ∧
      (∀ s, s ∈ retained.map SemVersion.render ↔
        s ∈ fetched ∧ ∃ v, semverParse s = some v ∧
          semverLtb v minV = false ∧ (v.preRelease = "" ∨ includePre = true))) ∧
    retainedVersionsNoPre fetched minV = retainedVersions fetched minV true := by
  constructor
  · have hcanonD : ∀ s ∈ fetched.dedup, ∃ v, semverParse s = some v ∧ v.render = s :=
      fun s hs => hcanon s (List.mem_dedup.mp hs)
    obtain ⟨ps, hps, hmap, hmem⟩ := parseAll_canonical fetched.dedup hcanonD
    refine ⟨List.insertionSort semverLe (ps.filter (keepVersion minV includePre)),
      ?_, ?_, ?_, ?_, ?_⟩
    · unfold retainedVersions
      rw [hps]
      rfl
    · exact List.sorted_insertionSort semverLe _
    · unfold versionsOut retainedVersions
      rw [hps]
      rfl
    · have hD : (ps.map SemVersion.render).Nodup := by
        rw [hmap]
        exact List.nodup_dedup fetched
      have hsub := (List.filter_sublist (p := keepVersion minV includePre) ps).map
        SemVersion.render
      have hkept := List.Nodup.sublist hsub hD
      have hperm := (List.perm_insertionSort semverLe
        (ps.filter (keepVersion minV includePre))).map SemVersion.render
      exact hperm.nodup_iff.mpr hkept
    · intro s
      have hperm := (List.perm_insertionSort semverLe
        (ps.filter (keepVersion minV includePre))).map SemVersion.render
      rw [hperm.mem_iff, List.mem_map]
      constructor
      · rintro ⟨v, hvf, hrv⟩
        rw [List.mem_filter] at hvf
        obtain ⟨hvps, hkeep⟩ := hvf
        have hin : v.render ∈ ps.map SemVersion.render :=
          List.mem_map.mpr ⟨v, hvps, rfl⟩
        rw [hmap] at hin
        subst hrv
        exact ⟨List.mem_dedup.mp hin, v, hmem v hvps,
          (keepVersion_eq_true_iff minV includePre v).mp hkeep⟩
      · rintro ⟨hsf, v, hpv, hcond⟩
        have hsd : s ∈ ps.map SemVersion.render := by
          rw [hmap]
          exact List.mem_dedup.mpr hsf
        obtain ⟨w, hwps, hws⟩ := List.mem_map.mp hsd
        have hpw := hmem w hwps
        rw [hws] at hpw
        have hwv : w = v := by
          rw [hpw] at hpv
          exact Option.some.inj hpv
        subst hwv
        exact ⟨w, List.mem_filter.mpr
          ⟨hwps, (keepVersion_eq_true_iff minV includePre w).mpr hcond⟩, hws⟩
  · have hfilter : keepVersionNoPre minV = keepVersion minV true := by
      funext v
      unfold keepVersionNoPre keepVersion
      simp
    unfold retainedVersionsNoPre retainedVersions
    rw [hfilter]

/-- C1 counterexample: the fetched strings `"01.2.3"` and `"1.2.3"` are
distinct (both pass the listing's `\d+\.\d+\.\d+` filter and both parse),
yet the computed `versions` list is `["1.2.3", "1.2.3"]` - a duplicate - so
the deduplication property of the claim fails as stated for this set of
fetched version strings. -/
theorem dart_versions_dedup_counterexample :
    versionsOut ["01.2.3", "1.2.3"] ⟨0, 0, 0, "", ""⟩ false =
      some ["1.2.3", "1.2.3"] ∧
    ¬(["1.2.3", "1.2.3"] : List String).Nodup := by
  constructor
  · rfl
  · decide

/-- Witness for C1 (amended) at the canonical fetched set
`["3.5.1", "3.5.0", "3.6.0-dev.1"]`, `min_version` 3.5.0, pre-releases
excluded. -/
theorem dart_versions_filter_sort_witness :
    (∃ retained,
      retainedVersions ["3.5.1", "3.5.0", "3.6.0-dev.1"] ⟨3, 5, 0, "", ""⟩ false =
        some retained ∧
      List.Sorted semverLe retained ∧
      versionsOut ["3.5.1", "3.5.0", "3.6.0-dev.1"] ⟨3, 5, 0, "", ""⟩ false =
        some (retained.map SemVersion.render) ∧
      (retained.map SemVersion.render).Nodup ∧
      (∀ s, s ∈ retained.map SemVersion.render ↔
        s ∈ ["3.5.1", "3.5.0", "3.6.0-dev.1"] ∧ ∃ v, semverParse s = some v ∧
          semverLtb v ⟨3, 5, 0, "", ""⟩ = false ∧
          (v.preRelease = "" ∨ false = true))) ∧
    retainedVersionsNoPre ["3.5.1", "3.5.0", "3.6.0-dev.1"] ⟨3, 5, 0, "", ""⟩ =
      retainedVersions ["3.5.1", "3.5.0", "3.6.0-dev.1"] ⟨3, 5, 0, "", ""⟩ true :=
  dart_versions_filter_sort ["3.5.1", "3.5.0", "3.6.0-dev.1"] ⟨3, 5, 0, "", ""⟩ false
    (by
      intro s hs
      simp only [List.mem_cons, List.not_mem_nil, or_false] at hs
      rcases hs with h | h | h <;> subst h
      · exact ⟨⟨3, 5, 1, "", ""⟩, by decide⟩
      · exact ⟨⟨3, 5, 0, "", ""⟩, by decide⟩
      · exact ⟨⟨3, 6, 0, "dev.1", ""⟩, by decide⟩)

/-- C3 counterexample: `ServiceConfigResource.Read` turns a not-found lookup
error into a "Could not retrieve configuration for service" diagnostic
instead of treating the resource as absent, so "not-found is never surfaced
as a failure" fails on this resource's Read as stated. -/
theorem read_not_found_counterexample :
    serviceConfigResourceRead ⟨"svc/cfg", "svc", "", ""⟩
        (.err ⟨true, true, true, true, "rpc error: NotFound: not found"⟩) =
      .normal [("Could not retrieve configuration for service",
        "rpc error: NotFound: not found")] none ∧
    serviceConfigResourceRead ⟨"svc/cfg", "svc", "", ""⟩
        (.err ⟨true, true, true, true, "rpc error: NotFound: not found"⟩) ≠
      .normal [] none := by
  constructor
  · rfl
  · decide

/-- C3 (amended): every resource Read except the service-configuration
resource's treats a not-found lookup as absence - it returns with neither a
diagnostic nor a state write (service, rollout, tenancy unit, tenant
project); `ServiceConfigResource.Read` instead surfaces every lookup error,
not-found included, as an error diagnostic. -/
theorem read_not_found_amended :
    (∀ data e, e.fromStatusOk = true →
      (e.codeIsNotFound = true ∨ e.statusStrHasNotFound = true) →
      serviceRead data (.err e) = .normal [] none) ∧
    (∀ (data : RolloutModel) idStr sv rid e, data.id = some idStr →
      parseRolloutId idStr = .ok (sv, rid) →
      e.fromStatusOk = true → e.codeIsNotFound = true →
      rolloutRead data (.err e) = .normal [] none) ∧
    (∀ data e, e.fromStatusOk = true →
      (e.codeIsNotFound = true ∨ e.statusStrHasNotFound = true) →
      tenancyUnitRead data (.err e) = .normal [] none) ∧
    (∀ data e,
      (e.fromStatusOk = true ∧ e.codeIsNotFound = true) ∨ e.msgHasNotFound = true →
      serviceProjectRead data (.err e) = .normal [] none) ∧
    (∀ data tus, getTenancyUnit (optStr data.id) (.ok tus) = .ok none →
      tenancyUnitRead data (.ok tus) = .normal [] none) ∧
    (∀ data lookupRes, getTenantProject data.tenancyUnit data.tag lookupRes = .ok none →
      serviceProjectRead data lookupRes = .normal [] none) ∧
    (∀ (data : ConfigResourceModel) sv cfg e, parseConfigId data.id = .ok (sv, cfg) →
      serviceConfigResourceRead data (.err e) =
        .normal [("Could not retrieve configuration for service", e.msg)] none) := by
  refine ⟨?_, ?_, ?_, ?_, ?_, ?_, ?_⟩
  · intro data e h1 h2
    rcases h2 with h2 | h2 <;> simp [serviceRead, h1, h2]
  · intro data idStr sv rid e hid hparse h1 h2
    simp [rolloutRead, hid, hparse, h1, h2]
  · intro data e h1 h2
    rcases h2 with h2 | h2 <;> simp [tenancyUnitRead, getTenancyUnit, h1, h2]
  · intro data e h
    rcases h with ⟨h1, h2⟩ | h
    · by_cases h3 : (e.codeIsNotFound || e.statusStrHasNotFound) = true
      · simp [serviceProjectRead, getTenantProject, getTenancyUnit, h1, h2, h3]
      · simp [serviceProjectRead, getTenantProject, getTenancyUnit, h1, h2, h3]
    · by_cases h3 : (e.fromStatusOk && (e.codeIsNotFound || e.statusStrHasNotFound)) = true
      · simp [serviceProjectRead, getTenantProject, getTenancyUnit, h3, h]
      · simp [serviceProjectRead, getTenantProject, getTenancyUnit, h3, h]
  · intro data tus h
    simp [tenancyUnitRead, h]
  · intro data lookupRes h
    simp [serviceProjectRead, h]
  · intro data sv cfg e hparse
    simp [serviceConfigResourceRead, hparse]

/-- Witness for C3 (amended): a NotFound status error against the service
Read and the rollout Read. -/
theorem read_not_found_amended_witness :
    serviceRead ⟨"svc", "proj", none⟩ (.err ⟨true, true, false, false, "nf"⟩) =
      .normal [] none ∧
    rolloutRead ⟨some "svc/r1", none, none⟩ (.err ⟨true, true, false, false, "nf"⟩) =
      .normal [] none :=
  ⟨read_not_found_amended.1 ⟨"svc", "proj", none⟩ ⟨true, true, false, false, "nf"⟩
      rfl (Or.inl rfl),
   read_not_found_amended.2.1 ⟨some "svc/r1", none, none⟩ "svc/r1" "svc" "r1"
      ⟨true, true, false, false, "nf"⟩ rfl rfl rfl rfl⟩

/-- C4 counterexample: with the first channel failing ("boom") and the second
succeeding with `["1.2.3"]`, the Read reports the error as a diagnostic but
still merges the surviving channel's versions, computes the version lists and
writes them to the response state - contradicting "no versions are computed
or written to state from the remaining channels". -/
theorem dart_first_error_counterexample :
    dartVersionsRead "dart" "1.0.0" false [.fail "boom", .ok ["1.2.3"]] =
      .normal [("Failed to list versions", "boom")]
        (some ⟨"dart/1.0.0", ["1.2.3"], ["1.2"], false⟩) ∧
    dartVersionsRead "dart" "1.0.0" false [.fail "boom", .ok ["1.2.3"]] ≠
      .normal [("Failed to list versions", "boom")] none := by
  constructor
  · rfl
  · decide

theorem mem_mergedVersions_of_ok {vs : List String} {rs : List ChannelResult}
    (hvs : ChannelResult.ok vs ∈ rs) {v : String} (hv : v ∈ vs) :
    v ∈ mergedVersions rs := by
  induction rs with
  | nil => simp at hvs
  | cons r rest ih =>
    rcases List.mem_cons.mp hvs with h | h
    · subst h
      simp [mergedVersions, hv]
    · cases r with
      | ok ws =>
        simp only [mergedVersions, List.mem_append]
        exact Or.inr (ih h)
      | fail msg =>
        simp only [mergedVersions]
        exact ih h

/-- C4 (amended): when any per-channel listing request fails, the first error
in completion order is reported as the sole "Failed to list versions"
diagnostic - but the group is not cancelled: every successful channel's
versions (also those finishing after the failure) are still merged, filtered,
sorted and written to the response state; the read then fails overall only
because an error diagnostic is present. -/
theorem dart_first_error_amended (sdkType minStr : String) (includePre : Bool)
    (rs : List ChannelResult) (m : String) (minV : SemVersion)
    (parsed : List SemVersion)
    (hfe : firstError rs = some m)
    (hmin : semverParse minStr = some minV)
    (hparse : parseAll (mergedVersions rs).dedup = some parsed) :
    dartVersionsRead sdkType minStr includePre rs =
      .normal [("Failed to list versions", m)]
        (some {
          id := sdkType ++ "/" ++ minStr,
          versions := (List.insertionSort semverLe
            (parsed.filter (keepVersion minV includePre))).map SemVersion.render,
          containerVersions := containerVersionsOut (List.insertionSort semverLe
            (parsed.filter (keepVersion minV includePre))),
          includePrerelease := includePre }) ∧
    ∀ vs, ChannelResult.ok vs ∈ rs → ∀ v ∈ vs, v ∈ mergedVersions rs := by
  constructor
  · simp only [dartVersionsRead, hfe, hmin, hparse]
  · exact fun vs hvs v hv => mem_mergedVersions_of_ok hvs hv

/-- Witness for C4 (amended) at the counterexample's inputs. -/
theorem dart_first_error_amended_witness :
    dartVersionsRead "dart" "1.0.0" false [.fail "boom", .ok ["1.2.3"]] =
      .normal [("Failed to list versions", "boom")]
        (some {
          id := "dart" ++ "/" ++ "1.0.0",
          versions := (List.insertionSort semverLe
            (([⟨1, 2, 3, "", ""⟩] : List SemVersion).filter
              (keepVersion ⟨1, 0, 0, "", ""⟩ false))).map SemVersion.render,
          containerVersions := containerVersionsOut (List.insertionSort semverLe
            (([⟨1, 2, 3, "", ""⟩] : List SemVersion).filter
              (keepVersion ⟨1, 0, 0, "", ""⟩ false))),
          includePrerelease := false }) ∧
    ∀ vs, ChannelResult.ok vs ∈ [ChannelResult.fail "boom", ChannelResult.ok ["1.2.3"]] →
      ∀ v ∈ vs, v ∈ mergedVersions [ChannelResult.fail "boom", ChannelResult.ok ["1.2.3"]] :=
  dart_first_error_amended "dart" "1.0.0" false [.fail "boom", .ok ["1.2.3"]]
    "boom" ⟨1, 0, 0, "", ""⟩ [⟨1, 2, 3, "", ""⟩] rfl rfl rfl

theorem pollLoop_completed {polls : List (SdkResult OpState)} :
    ∀ {op n s f}, pollLoop op polls = .completed n s f →
      f.done = true ∧ s = 5 * n := by
  induction polls with
  | nil =>
    intro op n s f h
    unfold pollLoop at h
    by_cases hd : op.done
    · rw [if_pos hd] at h
      cases h
      exact ⟨hd, rfl⟩
    · rw [if_neg hd] at h
      cases h
  | cons r rest ih =>
    intro op n s f h
    unfold pollLoop at h
    by_cases hd : op.done
    · rw [if_pos hd] at h
      cases h
      exact ⟨hd, rfl⟩
    · rw [if_neg hd] at h
      cases r with
      | err e =>
        have h2 : PollOutcome.pollFailed 1 5 e = PollOutcome.completed n s f := h
        cases h2
      | ok op2 =>
        have h2 : (pollLoop op2 rest).addIter = PollOutcome.completed n s f := h
        cases hpl : pollLoop op2 rest with
        | completed g s2 f2 =>
          rw [hpl] at h2
          simp only [PollOutcome.addIter] at h2
          cases h2
          obtain ⟨hdone, hs⟩ := ih hpl
          exact ⟨hdone, by omega⟩
        | pollFailed g s2 e2 =>
          rw [hpl] at h2
          simp only [PollOutcome.addIter] at h2
          cases h2
        | stillRunning g s2 =>
          rw [hpl] at h2
          simp only [PollOutcome.addIter] at h2
          cases h2

theorem pollLoop_failed {polls : List (SdkResult OpState)} :
    ∀ {op n s e}, pollLoop op polls = .pollFailed n s e →
      s = 5 * n ∧ 1 ≤ n := by
  induction polls with
  | nil =>
    intro op n s e h
    unfold pollLoop at h
    by_cases hd : op.done
    · rw [if_pos hd] at h
      cases h
    · rw [if_neg hd] at h
      cases h
  | cons r rest ih =>
    intro op n s e h
    unfold pollLoop at h
    by_cases hd : op.done
    · rw [if_pos hd] at h
      cases h
    · rw [if_neg hd] at h
      cases r with
      | err e2 =>
        have h2 : PollOutcome.pollFailed 1 5 e2 = PollOutcome.pollFailed n s e := h
        cases h2
        exact ⟨rfl, le_refl 1⟩
      | ok op2 =>
        have h2 : (pollLoop op2 rest).addIter = PollOutcome.pollFailed n s e := h
        cases hpl : pollLoop op2 rest with
        | completed g s2 f2 =>
          rw [hpl] at h2
          simp only [PollOutcome.addIter] at h2
          cases h2
        | pollFailed g s2 e2 =>
          rw [hpl] at h2
          simp only [PollOutcome.addIter] at h2
          cases h2
          obtain ⟨hs, hn⟩ := ih hpl
          exact ⟨by omega, by omega⟩
        | stillRunning g s2 =>
          rw [hpl] at h2
          simp only [PollOutcome.addIter] at h2
          cases h2

theorem pollLoop_no_timeout {polls : List (SdkResult OpState)} :
    ∀ {op}, op.done = false →
      (∀ r ∈ polls, ∃ o, r = SdkResult.ok o ∧ o.done = false) →
      pollLoop op polls = .stillRunning polls.length (5 * polls.length) := by
  induction polls with
  | nil =>
    intro op hop _
    simp [pollLoop, hop]
  | cons r rest ih =>
    intro op hop hall
    obtain ⟨o, hr, ho⟩ := hall r (List.mem_cons_self r rest)
    subst hr
    rw [pollLoop, if_neg (by simp [hop])]
    rw [ih ho (fun r2 hr2 => hall r2 (List.mem_cons_of_mem _ hr2))]
    simp only [PollOutcome.addIter, List.length_cons]
    rfl

/-- C5: for Create, Update and Delete of the tenant-project resource, the
poll loop sleeps a fixed five seconds per iteration and then re-fetches the
operation (`slept = 5 * gets` always); an already-done operation is never
polled; the loop exits only when the operation reports done - it never
completes while the handle reports not-done - or when a poll fails, in which
case the respective operation surfaces exactly that poll error as an "Error
getting operation" diagnostic and writes no state; with no timeout, the loop
keeps running as long as every poll reports not-done. -/
theorem poll_loop_spec :
    (∀ op (polls : List (SdkResult OpState)) n s f,
      pollLoop op polls = .completed n s f → f.done = true ∧ s = 5 * n) ∧
    (∀ op (polls : List (SdkResult OpState)), op.done = true →
      pollLoop op polls = .completed 0 0 op) ∧
    (∀ op (polls : List (SdkResult OpState)), op.done = false →
      (∀ r ∈ polls, ∃ o, r = SdkResult.ok o ∧ o.done = false) →
      pollLoop op polls = .stillRunning polls.length (5 * polls.length)) ∧
    (∀ op (polls : List (SdkResult OpState)) n s e,
      pollLoop op polls = .pollFailed n s e → s = 5 * n ∧ 1 ≤ n) ∧
    (∀ data addOp polls lookupRes n s e, pollLoop addOp polls = .pollFailed n s e →
      serviceProjectCreate data (.ok addOp) polls lookupRes =
        .normal [("Error getting operation", e.msg)] none) ∧
    (∀ data applyOp polls lookupRes n s e, pollLoop applyOp polls = .pollFailed n s e →
      serviceProjectUpdate data (.ok applyOp) polls lookupRes =
        .normal [("Error getting operation", e.msg)] none) ∧
    (∀ data remOp polls n s e, pollLoop remOp polls = .pollFailed n s e →
      serviceProjectDelete data (.ok remOp) polls =
        .normal [("Error getting operation", e.msg)] none) := by
  refine ⟨?_, ?_, ?_, ?_, ?_, ?_, ?_⟩
  · intro op polls n s f h
    exact pollLoop_completed h
  · intro op polls h
    cases polls <;> simp [pollLoop, h]
  · intro op polls h1 h2
    exact pollLoop_no_timeout h1 h2
  · intro op polls n s e h
    exact pollLoop_failed h
  · intro data addOp polls lookupRes n s e h
    simp [serviceProjectCreate, h]
  · intro data applyOp polls lookupRes n s e h
    simp [serviceProjectUpdate, h]
  · intro data remOp polls n s e h
    simp [serviceProjectDelete, h]

/-- Witness for C5: an already-done operation polls zero times; a not-done
operation with one not-done poll response keeps running (one 5-second
sleep); a failing poll surfaces the poll error from Create. -/
theorem poll_loop_spec_witness :
    pollLoop ⟨true, "op"⟩ [] = .completed 0 0 ⟨true, "op"⟩ ∧
    pollLoop ⟨false, "op"⟩ [.ok ⟨false, "op"⟩] = .stillRunning 1 5 ∧
    serviceProjectCreate ⟨none, "services/s/projects/1/tenancyUnits/t", "tag", none⟩
        (.ok ⟨false, "op"⟩) [.err ⟨false, false, false, false, "poll broke"⟩] (.ok []) =
      .normal [("Error getting operation", "poll broke")] none :=
  ⟨poll_loop_spec.2.1 ⟨true, "op"⟩ [] rfl,
   poll_loop_spec.2.2.1 ⟨false, "op"⟩ [.ok ⟨false, "op"⟩] rfl
     (by
       intro r hr
       simp only [List.mem_cons, List.not_mem_nil, or_false] at hr
       exact ⟨⟨false, "op"⟩, hr, rfl⟩),
   poll_loop_spec.2.2.2.2.1
     ⟨none, "services/s/projects/1/tenancyUnits/t", "tag", none⟩ ⟨false, "op"⟩
     [.err ⟨false, false, false, false, "poll broke"⟩] (.ok []) 1 5
     ⟨false, false, false, false, "poll broke"⟩ rfl⟩

/-- C6: every modelled operation that receives a cloud SDK error (other than
a not-found where the operation tolerates one) adds exactly one error
diagnostic whose detail is exactly the SDK error's message and returns
without writing state. -/
theorem sdk_error_diagnostics :
    (∀ id sv cfg e, parseConfigId id = .ok (sv, cfg) →
      serviceConfigDataRead id (.err e) =
        .normal [("Failed to get service config", e.msg)] none) ∧
    (∀ data e, tenancyUnitCreate data (.err e) =
      .normal [("Error creating tenancy unit", e.msg)] none) ∧
    (∀ data e e2 waitRes, (e.codeIsNotFound || e.msgHasNotFound) = true →
      serviceCreate data (.err e) (.err e2) waitRes =
        ⟨true, .normal [("Error creating service", e2.msg)] none⟩) ∧
    (∀ data e e3, (e.codeIsNotFound || e.msgHasNotFound) = true →
      serviceCreate data (.err e) (.ok ()) (.err e3) =
        ⟨true, .normal [("Error creating service", e3.msg)] none⟩) ∧
    (∀ data e, (e.fromStatusOk && (e.codeIsNotFound || e.statusStrHasNotFound)) = false →
      serviceRead data (.err e) =
        .normal [("Could not retrieve service", e.msg)] none) ∧
    (∀ data idStr sv rid e, data.id = some idStr → parseRolloutId idStr = .ok (sv, rid) →
      (e.fromStatusOk && e.codeIsNotFound) = false →
      rolloutRead data (.err e) =
        .normal [("Error reading service rollout", e.msg)] none) ∧
    (∀ data e, (e.fromStatusOk && (e.codeIsNotFound || e.statusStrHasNotFound)) = false →
      tenancyUnitRead data (.err e) =
        .normal [("Error getting tenancy unit", e.msg)] none) ∧
    (∀ data e polls lookupRes, serviceProjectCreate data (.err e) polls lookupRes =
      .normal [("Error adding project", e.msg)] none) ∧
    (∀ data e polls lookupRes, serviceProjectUpdate data (.err e) polls lookupRes =
      .normal [("Error updating project", e.msg)] none) ∧
    (∀ data e polls, serviceProjectDelete data (.err e) polls =
      .normal [("Error removing project", e.msg)] none) := by
  refine ⟨?_, ?_, ?_, ?_, ?_, ?_, ?_, ?_, ?_, ?_⟩
  · intro id sv cfg e hparse
    simp [serviceConfigDataRead, hparse]
  · intro data e
    rfl
  · intro data e e2 waitRes h
    simp [serviceCreate, ← Bool.not_or, h]
  · intro data e e3 h
    simp [serviceCreate, ← Bool.not_or, h]
  · intro data e h
    simp [serviceRead, h]
  · intro data idStr sv rid e hid hparse h
    simp [rolloutRead, hid, hparse, h]
  · intro data e h
    simp [tenancyUnitRead, getTenancyUnit, h]
  · intro data e polls lookupRes
    rfl
  · intro data e polls lookupRes
    rfl
  · intro data e polls
    rfl

/-- Witness for C6: a permission-denied style error against the
service-config data source and the service Read. -/
theorem sdk_error_diagnostics_witness :
    serviceConfigDataRead "svc/cfg" (.err ⟨true, false, false, false, "permission denied"⟩) =
      .normal [("Failed to get service config", "permission denied")] none ∧
    serviceRead ⟨"svc", "proj", none⟩ (.err ⟨true, false, false, false, "permission denied"⟩) =
      .normal [("Could not retrieve service", "permission denied")] none :=
  ⟨sdk_error_diagnostics.1 "svc/cfg" "svc" "cfg"
      ⟨true, false, false, false, "permission denied"⟩ rfl,
   sdk_error_diagnostics.2.2.2.2.1 ⟨"svc", "proj", none⟩
      ⟨true, false, false, false, "permission denied"⟩ rfl⟩

/-- C9: `ServiceResource.Create` first looks the service up by name: a
successful lookup yields only the "Service already exists" diagnostic and no
`CreateService` call; a not-found lookup error (NotFound code or "not found"
in the message) proceeds to `CreateService`; any other lookup error is
surfaced as a diagnostic without creating. -/
theorem service_create_existence_check :
    (∀ data svc createRes waitRes,
      serviceCreate data (.ok svc) createRes waitRes =
        ⟨false, .normal [("Service already exists",
          "Service " ++ data.serviceName ++ " already exists")] none⟩) ∧
    (∀ data e createRes waitRes, (e.codeIsNotFound || e.msgHasNotFound) = true →
      (serviceCreate data (.err e) createRes waitRes).createCalled = true) ∧
    (∀ data e createRes waitRes, (e.codeIsNotFound || e.msgHasNotFound) = false →
      serviceCreate data (.err e) createRes waitRes =
        ⟨false, .normal [("Error getting service", e.msg)] none⟩) := by
  refine ⟨fun data svc createRes waitRes => rfl, ?_, ?_⟩
  · intro data e createRes waitRes h
    cases createRes with
    | err e2 => simp [serviceCreate, ← Bool.not_or, h]
    | ok u =>
      cases waitRes <;> simp [serviceCreate, ← Bool.not_or, h]
  · intro data e createRes waitRes h
    simp [serviceCreate, ← Bool.not_or, h]

/-- Witness for C9: an existing service blocks creation; a NotFound lookup
error leads to the create call. -/
theorem service_create_existence_check_witness :
    serviceCreate ⟨"svc", "proj", none⟩ (.ok ⟨"svc", "proj"⟩) (.ok ()) (.ok ⟨"svc", "proj"⟩) =
      ⟨false, .normal [("Service already exists", "Service " ++ "svc" ++ " already exists")]
        none⟩ ∧
    (serviceCreate ⟨"svc", "proj", none⟩ (.err ⟨true, true, false, true, "not found"⟩)
      (.ok ()) (.ok ⟨"svc", "proj"⟩)).createCalled = true :=
  ⟨service_create_existence_check.1 ⟨"svc", "proj", none⟩ ⟨"svc", "proj"⟩ (.ok ())
      (.ok ⟨"svc", "proj"⟩),
   service_create_existence_check.2.1 ⟨"svc", "proj", none⟩
      ⟨true, true, false, true, "not found"⟩ (.ok ()) (.ok ⟨"svc", "proj"⟩) rfl⟩

/-- C10: after the add-project (Create) or apply-config (Update) operation
completes, the implementation panics with "project not found" - it does not
return a diagnostic - whenever the tenant-project lookup reports absence;
and absence is reachable from the public interface: it arises whenever the
tenancy unit exists but holds no tenant resource with the configured tag. -/
theorem tenant_project_absence_panics :
    (∀ data addOp polls lookupRes n s f,
      pollLoop addOp polls = .completed n s f →
      getTenantProject data.tenancyUnit data.tag lookupRes = .ok none →
      serviceProjectCreate data (.ok addOp) polls lookupRes =
        .panicked "project not found") ∧
    (∀ data applyOp polls lookupRes n s f,
      pollLoop applyOp polls = .completed n s f →
      getTenantProject data.tenancyUnit data.tag lookupRes = .ok none →
      serviceProjectUpdate data (.ok applyOp) polls lookupRes =
        .panicked "project not found") ∧
    (∀ id tag listRes tu, getTenancyUnit id listRes = .ok (some tu) →
      (∀ r ∈ tu.tenantResources, r.tag ≠ tag) →
      getTenantProject id tag listRes = .ok none) := by
  refine ⟨?_, ?_, ?_⟩
  · intro data addOp polls lookupRes n s f hpoll hlookup
    simp [serviceProjectCreate, hpoll, hlookup]
  · intro data applyOp polls lookupRes n s f hpoll hlookup
    simp [serviceProjectUpdate, hpoll, hlookup]
  · intro id tag listRes tu hgtu hnone
    have hfind : tu.tenantResources.find? (fun r => r.tag == tag) = none := by
      rw [List.find?_eq_none]
      intro r hr
      simp only [beq_iff_eq]
      exact hnone r hr
    simp [getTenantProject, hgtu, hfind]

/-- Witness for C10: a tenancy unit that exists but has no resource with the
configured tag makes Create panic after the operation completes. -/
theorem tenant_project_absence_panics_witness :
    serviceProjectCreate ⟨none, "services/s/projects/1/tenancyUnits/t", "tag1", none⟩
        (.ok ⟨true, "op"⟩) []
        (.ok [⟨"services/s/projects/1/tenancyUnits/t", "s", "projects/1", []⟩]) =
      .panicked "project not found" :=
  tenant_project_absence_panics.1
    ⟨none, "services/s/projects/1/tenancyUnits/t", "tag1", none⟩ ⟨true, "op"⟩ []
    (.ok [⟨"services/s/projects/1/tenancyUnits/t", "s", "projects/1", []⟩])
    0 0 ⟨true, "op"⟩ rfl rfl
